import Mathlib

/-!
Shallow embedding of the two asset scripts of `audiobook_flutter_v2`
(`scripts/fetch_supertonic_assets.py` and `scripts/build_supertonic_release.py`),
together with theorems settling the frozen claims about them.

Files are modelled as an association list from path to byte content (a byte is
a `Nat`); directories created by `os.makedirs` are tracked as a plain list of
path strings.  Network I/O is modelled by an explicit outcome value (`Net`)
supplied to each download call, and by a per-URL success predicate where only
success/failure matters.
-/

namespace Supertonic

/-- A file system: files as a write-journal association list (the first entry
for a path is its current content) plus the set of directories created so far. -/
structure FS where
  files : List (String × List Nat)
  dirs : List String
deriving DecidableEq, Repr

/-- First value bound to a key in an association list. -/
def findVal : List (String × List Nat) → String → Option (List Nat)
  | [], _ => none
  | (k, v) :: es, p => if k = p then some v else findVal es p

/-- Content of the file at `p`, if it exists. -/
def lookupFile (fs : FS) (p : String) : Option (List Nat) :=
  findVal fs.files p

/-- `os.path.exists`: true for both files and directories. -/
def fsExists (fs : FS) (p : String) : Bool :=
  (lookupFile fs p).isSome || fs.dirs.contains p

/-- Write (create or overwrite) the file at `p` with content `c`. -/
def fsWriteFile (fs : FS) (p : String) (c : List Nat) : FS :=
  ⟨(p, c) :: fs.files, fs.dirs⟩

/-- Drop every entry whose key is `p`. -/
def removeKey (p : String) : List (String × List Nat) → List (String × List Nat)
  | [] => []
  | (k, v) :: es => if k = p then removeKey p es else (k, v) :: removeKey p es

/-- `os.remove`: delete the file at `p` (no-op when absent, as in the scripts
the call is guarded by an existence check). -/
def fsRemoveFile (fs : FS) (p : String) : FS :=
  ⟨removeKey p fs.files, fs.dirs⟩

/-- `os.makedirs(p, exist_ok=True)`.  Intermediate parents are not tracked
separately; only the requested directory is recorded. -/
def makedirs (fs : FS) (p : String) : FS :=
  ⟨fs.files, p :: fs.dirs⟩

/-- `os.replace(src, dst)`: move the file at `src` over `dst`.  The scripts
only call it on a `src` they have just written, so the missing-`src` case
(which would raise in Python) is modelled as a no-op and never reached. -/
def fsRename (fs : FS) (src dst : String) : FS :=
  match lookupFile fs src with
  | none => fs
  | some c => fsWriteFile (fsRemoveFile fs src) dst c

/-- Does string `p` start with string `q`? -/
def startsWithStr (q p : String) : Bool :=
  q.toList.isPrefixOf p.toList

/-- Does string `p` end with string `q` (Python `str.endswith`)? -/
def strEndsWith (p q : String) : Bool :=
  q.toList.isSuffixOf p.toList

/-- `shutil.rmtree(root, ignore_errors=True)`: drop every file and directory
whose path starts with `root`. -/
def rmtree (fs : FS) (root : String) : FS :=
  ⟨fs.files.filter (fun e => !startsWithStr root e.1),
   fs.dirs.filter (fun d => !startsWithStr root d)⟩

/-- `os.path.dirname`: the text before the last slash ("" when there is no
slash).  This matches Python for the relative and `/tmp/...` paths the
scripts build (it differs from `posixpath` only for paths directly under
the filesystem root, which never occur here). -/
def dirname (s : String) : String :=
  String.mk (((s.toList.reverse.dropWhile (fun c => c ≠ '/')).drop 1).reverse)

/-- `os.path.join(a, b)` for the shapes used by the scripts: `b` absolute
wins, otherwise concatenate with a single separating slash. -/
def pathJoin (a b : String) : String :=
  if startsWithStr "/" b then b
  else if a = "" then b
  else if strEndsWith a "/" then a ++ b
  else a ++ "/" ++ b

/-- Outcome of one HTTP transfer, supplied by the environment:
`ok chunks` is a complete stream delivered as the given chunk list;
`httpStatusError` is `urllib.error.HTTPError` raised by `urlopen` itself;
`connectError` is a `urllib.error.URLError` (DNS/connection failure) raised
by `urlopen` before any file is opened; `midStream chunks` is a transport
failure while reading the body, after the given chunks were already
written to the temporary file. -/
inductive Net where
  | ok (chunks : List (List Nat))
  | httpStatusError
  | connectError
  | midStream (chunks : List (List Nat))
deriving DecidableEq, Repr

/-- Error surfaced by a download: the caught-and-handled HTTP status error,
a transport error that propagates uncaught, or an OS error
(`os.makedirs("")` raising `FileNotFoundError`). -/
inductive DlErr where
  | httpStatus
  | transport
  | osError
deriving DecidableEq, Repr

/-- Open `p` in mode `"wb"`: create it empty (truncating any prior content). -/
def openTrunc (fs : FS) (p : String) : FS :=
  fsWriteFile fs p []

/-- One `out.write(chunk)` on the open file at `p`. -/
def appendChunk (fs : FS) (p : String) (c : List Nat) : FS :=
  fsWriteFile fs p (((lookupFile fs p).getD []) ++ c)

/-- The whole streaming loop: write each chunk in order to the file at `p`. -/
def writeChunks (fs : FS) (p : String) (chunks : List (List Nat)) : FS :=
  chunks.foldl (fun f c => appendChunk f p c) fs

/-- The file-system states of the streaming loop at `p` starting from `fs`:
`fs` itself, then the state after each successive chunk write. -/
def chunkStatesFrom (p : String) : FS → List (List Nat) → List FS
  | fs, [] => [fs]
  | fs, c :: cs => fs :: chunkStatesFrom p (appendChunk fs p c) cs

/-- Every intermediate file-system state of a download streaming to `p`:
after opening (truncating) the file and after each chunk write. -/
def chunkStates (fs : FS) (p : String) (cs : List (List Nat)) : List FS :=
  chunkStatesFrom p (openTrunc fs p) cs

/-- Result of `download_url` in `fetch_supertonic_assets.py`: the file system
afterwards, how many HTTP requests were opened, and either the returned
destination path or the exception that propagated. -/
structure DlUrlResult where
  fs : FS
  requests : Nat
  result : Except DlErr String
deriving Repr

/-- `download_url(url, dest_path, token, force)` of
`scripts/fetch_supertonic_assets.py`.  The `url`, the auth token and the
printed progress do not affect the file system or the result and are left
out; the transfer outcome is the explicit `net` argument.
Structure of the source: skip when the destination exists and `force` is
false; `os.makedirs(os.path.dirname(dest_path), exist_ok=True)` (raises
`FileNotFoundError` when the dirname is empty); stream the body to
`dest_path + ".part"`; `os.replace` onto `dest_path`; only
`urllib.error.HTTPError` is caught, removing the partial file and
re-raising — every other exception propagates untouched. -/
def download_url (net : Net) (fs : FS) (dest : String) (force : Bool) : DlUrlResult :=
  if fsExists fs dest && !force then
    ⟨fs, 0, .ok dest⟩
  else if dirname dest = "" then
    ⟨fs, 0, .error .osError⟩
  else
    let fs1 := makedirs fs (dirname dest)
    match net with
    | .ok chunks =>
        let fs2 := writeChunks (openTrunc fs1 (dest ++ ".part")) (dest ++ ".part") chunks
        ⟨fsRename fs2 (dest ++ ".part") dest, 1, .ok dest⟩
    | .httpStatusError =>
        -- urlopen raised before the .part file was opened; the handler
        -- removes a pre-existing .part (if any) and re-raises
        ⟨if fsExists fs1 (dest ++ ".part") then fsRemoveFile fs1 (dest ++ ".part") else fs1,
         1, .error .httpStatus⟩
    | .connectError =>
        ⟨fs1, 1, .error .transport⟩
    | .midStream chunks =>
        -- the exception is not an HTTPError: it propagates, leaving the
        -- partially written .part file in place
        ⟨writeChunks (openTrunc fs1 (dest ++ ".part")) (dest ++ ".part") chunks,
         1, .error .transport⟩

/-- The pre-scan loop of `extract_archive`'s zip branch in
`fetch_supertonic_assets.py`: for each member name it computes the target
path; when the target exists and `force` is false the `continue` skips the
rest of the loop body — which consists only of `os.makedirs(parent)` —
otherwise it creates the parent directory.  The loop writes no files. -/
def zipPrescan (destDir : String) (force : Bool) : FS → List String → FS
  | fs, [] => fs
  | fs, m :: ms =>
      let target := pathJoin destDir m
      if fsExists fs target && !force then
        zipPrescan destDir force fs ms
      else
        let par := dirname target
        zipPrescan destDir force (if par ≠ "" then makedirs fs par else fs) ms

/-- `ZipFile.extractall` / `TarFile.extractall`: write every member of the
archive into the destination, creating parent directories, overwriting any
existing file unconditionally. -/
def extractAllMembers (fs : FS) (destDir : String) (members : List (String × List Nat)) : FS :=
  members.foldl
    (fun f m =>
      fsWriteFile (makedirs f (dirname (pathJoin destDir m.1))) (pathJoin destDir m.1) m.2)
    fs

/-- `extract_archive(archive_path, dest_dir, force)` of
`scripts/fetch_supertonic_assets.py`.  The parsed content of the archive
file (member names and byte contents, in archive order) is supplied as
`members`.  Dispatch follows the source: a `.zip` name runs the pre-scan
loop and then `z.extractall(dest_dir)`; a `.tar.gz`/`.tgz`/`.tar` name runs
`t.extractall(dest_dir)`; anything else raises
`RuntimeError('Unsupported archive type: ' + archive_path)`.  The returned
pair is the file system afterwards and ok-or-raised-message. -/
def extract_archive (members : List (String × List Nat)) (archive_path : String)
    (fs : FS) (destDir : String) (force : Bool) : FS × Except String Unit :=
  if strEndsWith archive_path ".zip" then
    let fs1 := zipPrescan destDir force fs (members.map (fun m => m.1))
    (extractAllMembers fs1 destDir members, .ok ())
  else if strEndsWith archive_path ".tar.gz" || strEndsWith archive_path ".tgz"
      || strEndsWith archive_path ".tar" then
    (extractAllMembers fs destDir members, .ok ())
  else
    (fs, .error ("Unsupported archive type: " ++ archive_path))

/-- The scratch directory returned by `tempfile.mkdtemp(prefix='supertonic_release_')`
for the (single) call the script makes. -/
def tmpDirName : String := "/tmp/supertonic_release_0"

/-- `url.split('?')[0]`: the text before the first question mark. -/
def strSplitAtQ (s : String) : String :=
  String.mk (s.toList.takeWhile (fun c => c ≠ '?'))

/-- `os.path.basename`: the text after the last slash. -/
def basenameStr (s : String) : String :=
  String.mk ((s.toList.reverse.takeWhile (fun c => c ≠ '/')).reverse)

/-- The scratch filename `try_download_release_and_extract` downloads to:
`os.path.join(tmp, os.path.basename(url.split('?')[0]) or 'release.zip')`. -/
def releaseFilename (url : String) : String :=
  let b := basenameStr (strSplitAtQ url)
  pathJoin tmpDirName (if b = "" then "release.zip" else b)

/-- `try_download_release_and_extract(url, dest, token, force)` of
`scripts/fetch_supertonic_assets.py`: make a scratch directory, download the
archive there with `force=True`, extract it into `dest`, return `True`;
`except Exception` turns any failure (download or extraction) into `False`;
the `finally` block removes the scratch directory in every case. -/
def try_download_release_and_extract (members : List (String × List Nat)) (net : Net)
    (url : String) (fs : FS) (dest : String) (force : Bool) : FS × Bool :=
  let fs0 := makedirs fs tmpDirName
  let fname := releaseFilename url
  let d := download_url net fs0 fname true
  match d.result with
  | .error _ => (rmtree d.fs tmpDirName, false)
  | .ok _ =>
      match extract_archive members fname d.fs dest force with
      | (fs2, .ok _) => (rmtree fs2 tmpDirName, true)
      | (fs2, .error _) => (rmtree fs2 tmpDirName, false)

/-- Result of `download_file` in `build_supertonic_release.py`: file system,
request count, and either the returned boolean or a propagated exception. -/
structure DlFileResult where
  fs : FS
  requests : Nat
  result : Except DlErr Bool
deriving Repr

/-- `download_file(url, dest, force)` of `scripts/build_supertonic_release.py`.
Same shape as `download_url` with three differences visible in the source:
the temporary file is `dest + ".tmp"`, the skip and success branches return
`True`, and a caught `HTTPError` returns `False` instead of re-raising. -/
def download_file (net : Net) (fs : FS) (dest : String) (force : Bool) : DlFileResult :=
  if fsExists fs dest && !force then
    ⟨fs, 0, .ok true⟩
  else if dirname dest = "" then
    ⟨fs, 0, .error .osError⟩
  else
    let fs1 := makedirs fs (dirname dest)
    match net with
    | .ok chunks =>
        let fs2 := writeChunks (openTrunc fs1 (dest ++ ".tmp")) (dest ++ ".tmp") chunks
        ⟨fsRename fs2 (dest ++ ".tmp") dest, 1, .ok true⟩
    | .httpStatusError =>
        ⟨if fsExists fs1 (dest ++ ".tmp") then fsRemoveFile fs1 (dest ++ ".tmp") else fs1,
         1, .ok false⟩
    | .connectError =>
        ⟨fs1, 1, .error .transport⟩
    | .midStream chunks =>
        ⟨writeChunks (openTrunc fs1 (dest ++ ".tmp")) (dest ++ ".tmp") chunks,
         1, .error .transport⟩

/-- `REQUIRED_ONNX` of `fetch_supertonic_assets.py`. -/
def REQUIRED_ONNX : List String :=
  ["duration_predictor.onnx", "text_encoder.onnx", "vector_estimator.onnx", "vocoder.onnx"]

/-- `REQUIRED_JSON` of `fetch_supertonic_assets.py`. -/
def REQUIRED_JSON : List String :=
  ["tts.json", "unicode_indexer.json"]

/-- `default_styles` inside `download_per_file`. -/
def default_styles : List String :=
  ["M1", "M2", "M3", "M4", "M5", "F1", "F2", "F3", "F4", "F5"]

/-- Python `str.strip()` whitespace set (space, tab, newline, carriage
return, vertical tab, form feed). -/
def isPyWs (c : Char) : Bool :=
  c == ' ' || c == '\t' || c == '\n' || c == '\r' || c == '\x0b' || c == '\x0c'

/-- Python `str.strip()` on a character list: drop whitespace from both ends. -/
def pyStripChars (cs : List Char) : List Char :=
  (((cs.dropWhile isPyWs).reverse).dropWhile isPyWs).reverse

/-- Worker for Python `str.split(',')`: `acc` holds the current piece reversed. -/
def splitCommaAux : List Char → List Char → List (List Char)
  | [], acc => [acc.reverse]
  | c :: cs, acc =>
      if c = ',' then acc.reverse :: splitCommaAux cs []
      else splitCommaAux cs (c :: acc)

/-- Python `str.split(',')` (note `"".split(',') == ['']`). -/
def pySplitComma (cs : List Char) : List (List Char) :=
  splitCommaAux cs []

/-- The list comprehension
`[s.strip() for s in styles.split(',') if s.strip()]` of `download_per_file`. -/
def parseStyles (styles : String) : List String :=
  ((pySplitComma styles.toList).map (fun p => String.mk (pyStripChars p))).filter
    (fun t => !(t == ""))

/-- The `requested` list of `download_per_file`: the parsed `styles` string
when one was supplied (`styles is not None`), else `default_styles`. -/
def requestedStyles (styles : Option String) : List String :=
  match styles with
  | none => default_styles
  | some s => parseStyles s

/-- Python `str.format(revision=r)` for the templates the scripts use: the
placeholder written brace-revision-brace is replaced by `r`, doubled braces
are the escaped literal braces, and any other brace use (an unknown or
positional field, an unterminated or stray brace) raises.  Format
specifications such as a padded revision field are not used by the scripts
and are treated as invalid here.  Returns `none` when `format` raises. -/
def pyFormatRev : List Char → List Char → Option (List Char)
  | [], _ => some []
  | '\x7b' :: '\x7b' :: rest, r => (pyFormatRev rest r).map (fun t => '\x7b' :: t)
  | '\x7d' :: '\x7d' :: rest, r => (pyFormatRev rest r).map (fun t => '\x7d' :: t)
  | '\x7b' :: 'r' :: 'e' :: 'v' :: 'i' :: 's' :: 'i' :: 'o' :: 'n' :: '\x7d' :: rest, r =>
      (pyFormatRev rest r).map (fun t => r ++ t)
  | '\x7b' :: _, _ => none
  | '\x7d' :: _, _ => none
  | c :: rest, r => (pyFormatRev rest r).map (fun t => c :: t)

/-- The URLs of the two required loops of `download_per_file`, in loop order:
`hf_base.format(revision=...) + 'onnx/' + fname` first for `REQUIRED_ONNX`,
then for `REQUIRED_JSON`. -/
def requiredUrls (base : String) : List String :=
  REQUIRED_ONNX.map (fun f => base ++ "onnx/" ++ f)
    ++ REQUIRED_JSON.map (fun f => base ++ "onnx/" ++ f)

/-- The URL of one voice style:
`hf_base.format(revision=...) + f'voice_styles/STYLE.json'`. -/
def styleUrl (base st : String) : String :=
  base ++ "voice_styles/" ++ st ++ ".json"

/-- Attempt the given required URLs in order, stopping at the first failure
(an uncaught exception from `download_url`): returns the attempted URLs and
the failing URL, if any. -/
def runRequiredList (net : String → Bool) : List String → List String × Option String
  | [] => ([], none)
  | u :: us =>
      if net u then
        let r := runRequiredList net us
        (u :: r.1, r.2)
      else ([u], some u)

/-- Observable outcome of one `download_per_file` run: the required URLs
attempted in order, the style URLs attempted, the styles whose download
failed (warned about and skipped), and whether the call returned normally
or an exception propagated out of it. -/
structure PerFileRun where
  requiredAttempted : List String
  styleAttempted : List String
  warnings : List String
  outcome : Except String Unit
deriving Repr

/-- `download_per_file(hf_base, revision, dest, styles, token, force)` of
`scripts/fetch_supertonic_assets.py`, abstracted over a per-URL success
predicate `net` (`net u = true` when the `download_url` call for `u`
returns, covering both a fresh download and an existing-file skip; `false`
when it raises).  The file-system effects are those of the individual
`download_url` calls and are not repeated here; the claims about this
function concern which downloads are attempted and what propagates.
Source structure: format the base once per URL (identical results, shown
once here); the two required loops call `download_url` bare, so a failure
propagates; the style loop wraps the call in `try/except`, printing a
warning and continuing. -/
def download_per_file (net : String → Bool) (hfBase revision : String)
    (styles : Option String) : PerFileRun :=
  match pyFormatRev hfBase.toList revision.toList with
  | none =>
      -- hf_base.format raises at the first URL construction
      ⟨[], [], [], .error "format"⟩
  | some baseCs =>
      let base := String.mk baseCs
      let r := runRequiredList net (requiredUrls base)
      match r.2 with
      | some u => ⟨r.1, [], [], .error u⟩
      | none =>
          let req := requestedStyles styles
          ⟨r.1, req.map (fun st => styleUrl base st),
           req.filter (fun st => !net (styleUrl base st)), .ok ()⟩

/-- Python truthiness of a string: nonempty. -/
def pyTruthy (s : String) : Bool := s ≠ ""

/-- Python `a or b` for an optional string `a` and a string `b`. -/
def pyOr (a : Option String) (b : String) : String :=
  match a with
  | some s => if pyTruthy s then s else b
  | none => b

/-- The built-in default of the `SUPERSONIC_RELEASE_URL` environment lookup
in `fetch_supertonic_assets.py`'s `main`. -/
def defaultReleaseUrl : String :=
  "https://github.com/williamomeara/audiobook_flutter_assets/releases/download/ai-cores-int8-v1/supertonic_core.tar.gz"

/-- The built-in per-file base template of `main`. -/
def defaultHfBase : String :=
  "https://huggingface.co/Supertone/supertonic/resolve/\x7brevision\x7d/"

/-- The command-line arguments of `fetch_supertonic_assets.py` that influence
control flow (`--revision`, `--style`, `--dest`, `--force`, `--skip-release`,
`--supertonic-release-url`). -/
structure FetchArgs where
  revision : String
  style : Option String
  dest : String
  force : Bool
  skipRelease : Bool
  releaseUrlArg : Option String
deriving Repr

/-- The environment variables `main` reads.  `none` means unset; a set
variable carries its (possibly empty) string value. -/
structure OsEnv where
  hfToken : Option String
  huggingfaceToken : Option String
  supersonicReleaseUrl : Option String
  supertonicHfBase : Option String
deriving Repr

/-- `os.environ.get('SUPERSONIC_RELEASE_URL', default)`: the set value (even
when empty) or the built-in default. -/
def envRelease (env : OsEnv) : String :=
  match env.supersonicReleaseUrl with
  | some s => s
  | none => defaultReleaseUrl

/-- `release_url = args.supertonic_release_url or env_release`. -/
def releaseUrlOf (args : FetchArgs) (env : OsEnv) : String :=
  pyOr args.releaseUrlArg (envRelease env)

/-- `hf_base` before normalization: the truthy `SUPERTONIC_HF_BASE` override
or the built-in default. -/
def hfBaseRaw (env : OsEnv) : String :=
  pyOr env.supertonicHfBase defaultHfBase

/-- Python `pat in s` on character lists: does `pat` occur contiguously? -/
def containsSeq (pat : List Char) : List Char → Bool
  | [] => pat.isEmpty
  | c :: cs => pat.isPrefixOf (c :: cs) || containsSeq pat cs

/-- The placeholder text brace-revision-brace as a character list. -/
def revPat : List Char := "\x7brevision\x7d".toList

/-- The normalization in `main`: when the placeholder is absent, append a
slash if needed and then the placeholder plus a slash. -/
def normalizeHfBase (hf : String) : String :=
  if containsSeq revPat hf.toList then hf
  else
    let hf2 := if strEndsWith hf "/" then hf else hf ++ "/"
    hf2 ++ "\x7brevision\x7d/"

/-- The tail of `fetch_supertonic_assets.py`'s `main` after the release
attempt (or when it is skipped): build and normalize `hf_base`, return 2
when `hf_base.format(revision=...)` raises, return 3 when
`download_per_file` raises, else return 0. -/
def fetchRest (perNet : String → Bool) (args : FetchArgs) (env : OsEnv) : Nat :=
  let hfBase := normalizeHfBase (hfBaseRaw env)
  match pyFormatRev hfBase.toList args.revision.toList with
  | none => 2
  | some _ =>
      match (download_per_file perNet hfBase args.revision args.style).outcome with
      | .error _ => 3
      | .ok _ => 0

/-- `main(argv)` of `scripts/fetch_supertonic_assets.py`, returning the
process exit code.  `members` is the parsed content of the release archive,
`relNet` the transfer outcome of the release download, `perNet` the per-URL
outcome of the per-file downloads, `fs` the file system at start (its later
states do not influence the exit code and are not returned).  Source
structure: when `release_url` is truthy and `--skip-release` was not given,
try the release strategy and return 0 on success, otherwise fall through to
the per-file tail. -/
def fetchMain (members : List (String × List Nat)) (relNet : Net) (perNet : String → Bool)
    (args : FetchArgs) (env : OsEnv) (fs : FS) : Nat :=
  if pyTruthy (releaseUrlOf args env) && !args.skipRelease then
    if (try_download_release_and_extract members relNet (releaseUrlOf args env)
        fs args.dest args.force).2 then 0
    else fetchRest perNet args env
  else fetchRest perNet args env

/-- `ONNX_FILES` of `build_supertonic_release.py`. -/
def ONNX_FILES : List String :=
  ["onnx/text_encoder.onnx", "onnx/duration_predictor.onnx",
   "onnx/vector_estimator.onnx", "onnx/vocoder.onnx",
   "onnx/unicode_indexer.json", "onnx/tts.json"]

/-- `VOICE_STYLES` of `build_supertonic_release.py`. -/
def VOICE_STYLES : List String :=
  ["voice_styles/M1.json", "voice_styles/M2.json", "voice_styles/M3.json",
   "voice_styles/M4.json", "voice_styles/M5.json", "voice_styles/F1.json",
   "voice_styles/F2.json", "voice_styles/F3.json", "voice_styles/F4.json",
   "voice_styles/F5.json"]

/-- `ALL_FILES = ONNX_FILES + VOICE_STYLES`. -/
def ALL_FILES : List String := ONNX_FILES ++ VOICE_STYLES

/-- `HF_BASE` of `build_supertonic_release.py`. -/
def HF_BASE : String := "https://huggingface.co/Supertone/supertonic/resolve/main/"

/-- The download loop of `build_supertonic_release.py`'s `main`, restricted
to the runs in which every `download_file` call returns a boolean: `dl f` is
the boolean `download_file` returns for the entry `f` (whose URL is
`HF_BASE + f`).  A non-HTTPError transport failure makes `download_file`
raise instead of returning, aborting the loop — those runs are modelled by
`packDownloadLoop`/`packMainFull` below; `main` returns an exit code only in
the returning runs, so this abstraction is used for the exit-code mapping.
Returns (attempted entries in order, failed entries in order). -/
def packDownloads (dl : String → Bool) : List String × List String :=
  ALL_FILES.foldl (fun p f => (p.1 ++ [f], if dl f then p.2 else p.2 ++ [f])) ([], [])

/-- Observable outcome of one run of the pack tool's `main`. -/
structure PackRun where
  attempted : List String
  failed : List String
  archiveAttempted : Bool
  exit : Nat
deriving Repr

/-- `main()` of `scripts/build_supertonic_release.py`, abstracted over the
per-file download outcomes `dl` and the outcome `archiveOk` of
`create_archive` (which catches every exception internally and returns a
boolean).  Source structure: run the download loop over `ALL_FILES`; if any
entry failed, print them and return 1 — before `create_archive` is ever
called; otherwise return 2 when `create_archive` returns `False`, and 0
after the cleanup on success. -/
def packMain (dl : String → Bool) (archiveOk : Bool) : PackRun :=
  let r := packDownloads dl
  if r.2 ≠ [] then ⟨r.1, r.2, false, 1⟩
  else if archiveOk then ⟨r.1, r.2, true, 0⟩
  else ⟨r.1, r.2, true, 2⟩

/-- Observable state of the pack tool's download loop when the possibility of
a propagating exception is modelled: the file system afterwards, the entries
for which `download_file` was called (in order), the entries appended to
`failed` (those whose call returned `False`), and the exception that aborted
the loop, if any. -/
structure PackLoopResult where
  fs : FS
  attempted : List String
  failed : List String
  exc : Option DlErr
deriving Repr

/-- The download loop of `build_supertonic_release.py`'s `main` over the full
`download_file` model: for each entry `f` (in order) the call
`download_file(HF_BASE + f, os.path.join(supertonic_dir, f), args.force)` is
made with transfer outcome `dlNet f`; a returned `False` appends `f` to
`failed` and the loop continues, but a propagating exception (any
non-HTTPError failure) aborts the loop at that entry — the remaining entries
are never attempted. -/
def packDownloadLoop (dlNet : String → Net) (sdir : String) (force : Bool) :
    FS → List String → PackLoopResult
  | fs, [] => ⟨fs, [], [], none⟩
  | fs, f :: rest =>
      let r := download_file (dlNet f) fs (pathJoin sdir f) force
      match r.result with
      | Except.error e => ⟨r.fs, [f], [], some e⟩
      | Except.ok b =>
          let t := packDownloadLoop dlNet sdir force r.fs rest
          ⟨t.fs, f :: t.attempted, if b then t.failed else f :: t.failed, t.exc⟩

/-- Observable outcome of one run of the pack tool's `main` over the full
`download_file` model: the loop state, whether `create_archive` was invoked,
and the exit code `main` returned — `none` when the run aborted with a
propagating exception and `main` returned nothing. -/
structure PackMainResult where
  loop : PackLoopResult
  archiveAttempted : Bool
  exit : Option Nat
deriving Repr

/-- `main()` of `scripts/build_supertonic_release.py` over the full
`download_file` model (`dlNet` gives each entry's transfer outcome,
`archiveOk` the boolean `create_archive` returns).  Source structure:
`supertonic_dir = os.path.join(work_dir, "supertonic")` is created, the
download loop runs over `ALL_FILES`; an exception propagating out of
`download_file` aborts `main` before the `if failed:` check — no exit code
is returned and no archive attempted; otherwise `main` returns 1 when
`failed` is nonempty (before `create_archive`), else 2 or 0 by the archive
outcome. -/
def packMainFull (dlNet : String → Net) (workDir : String) (force archiveOk : Bool)
    (fs : FS) : PackMainResult :=
  let sdir := pathJoin workDir "supertonic"
  let t := packDownloadLoop dlNet sdir force (makedirs fs sdir) ALL_FILES
  let tail : Bool × Option Nat :=
    match t.exc with
    | some _ => (false, none)
    | none =>
        if t.failed ≠ [] then (false, some 1)
        else if archiveOk then (true, some 0)
        else (true, some 2)
  ⟨t, tail.1, tail.2⟩

/-! ### Basic lemmas about the file-system model -/

theorem lookupFile_write_self (fs : FS) (p : String) (c : List Nat) :
    lookupFile (fsWriteFile fs p c) p = some c := by
  simp [lookupFile, fsWriteFile, findVal]

theorem lookupFile_write_other (fs : FS) (p q : String) (c : List Nat) (h : q ≠ p) :
    lookupFile (fsWriteFile fs p c) q = lookupFile fs q := by
  show findVal ((p, c) :: fs.files) q = findVal fs.files q
  rw [findVal, if_neg (fun hh => h hh.symm)]

theorem findVal_removeKey_self (p : String) :
    ∀ l : List (String × List Nat), findVal (removeKey p l) p = none
  | [] => rfl
  | (k, v) :: es => by
      by_cases hk : k = p
      · rw [removeKey, if_pos hk]
        exact findVal_removeKey_self p es
      · rw [removeKey, if_neg hk, findVal, if_neg hk]
        exact findVal_removeKey_self p es

theorem findVal_removeKey_other (p q : String) (h : q ≠ p) :
    ∀ l : List (String × List Nat), findVal (removeKey p l) q = findVal l q
  | [] => rfl
  | (k, v) :: es => by
      by_cases hk : k = p
      · rw [removeKey, if_pos hk, findVal, if_neg (hk ▸ fun hh => h hh.symm)]
        exact findVal_removeKey_other p q h es
      · rw [removeKey, if_neg hk, findVal, findVal]
        by_cases hq : k = q
        · rw [if_pos hq, if_pos hq]
        · rw [if_neg hq, if_neg hq]
          exact findVal_removeKey_other p q h es

theorem lookupFile_remove_self (fs : FS) (p : String) :
    lookupFile (fsRemoveFile fs p) p = none :=
  findVal_removeKey_self p fs.files

theorem lookupFile_remove_other (fs : FS) (p q : String) (h : q ≠ p) :
    lookupFile (fsRemoveFile fs p) q = lookupFile fs q :=
  findVal_removeKey_other p q h fs.files

theorem lookupFile_makedirs (fs : FS) (d q : String) :
    lookupFile (makedirs fs d) q = lookupFile fs q := rfl

theorem lookupFile_none_of_not_exists (fs : FS) (q : String)
    (h : fsExists fs q = false) : lookupFile fs q = none := by
  rcases hl : lookupFile fs q with _ | c
  · rfl
  · simp [fsExists, hl] at h

theorem str_ne_append_of_ne_empty (s t : String) (h : t ≠ "") : s ≠ s ++ t := by
  intro hs
  apply h
  have hl := congrArg String.length hs
  rw [String.length_append] at hl
  have : t.length = 0 := by omega
  cases t with
  | mk data => cases data with
    | nil => rfl
    | cons c cs => simp [String.length] at this

theorem lookupFile_writeChunks_other (p q : String) (h : q ≠ p) :
    ∀ (cs : List (List Nat)) (fs : FS),
      lookupFile (writeChunks fs p cs) q = lookupFile fs q
  | [], fs => rfl
  | c :: cs, fs => by
      rw [writeChunks, List.foldl_cons, ← writeChunks,
        lookupFile_writeChunks_other p q h cs,
        appendChunk, lookupFile_write_other _ _ _ _ h]

theorem lookupFile_writeChunks_self (p : String) :
    ∀ (cs : List (List Nat)) (fs : FS) (acc : List Nat),
      lookupFile fs p = some acc →
      lookupFile (writeChunks fs p cs) p = some (acc ++ cs.flatten)
  | [], fs, acc, hacc => by simpa [writeChunks] using hacc
  | c :: cs, fs, acc, hacc => by
      rw [writeChunks, List.foldl_cons, ← writeChunks]
      rw [lookupFile_writeChunks_self p cs _ (acc ++ c)
        (by simp [appendChunk, hacc, lookupFile_write_self])]
      simp

theorem chunkStatesFrom_lookup (p q : String) (h : q ≠ p) :
    ∀ (cs : List (List Nat)) (fs : FS),
      ∀ s ∈ chunkStatesFrom p fs cs, lookupFile s q = lookupFile fs q := by
  intro cs
  induction cs with
  | nil =>
      intro fs s hs
      simp only [chunkStatesFrom, List.mem_singleton] at hs
      subst hs
      rfl
  | cons c cs ih =>
      intro fs s hs
      simp only [chunkStatesFrom, List.mem_cons] at hs
      rcases hs with hs | hs
      · subst hs; rfl
      · rw [ih _ s hs]
        exact lookupFile_write_other _ _ _ _ h

theorem chunkStates_lookup_other (p q : String) (h : q ≠ p)
    (cs : List (List Nat)) (fs : FS) :
    ∀ s ∈ chunkStates fs p cs, lookupFile s q = lookupFile fs q := by
  intro s hs
  rw [chunkStatesFrom_lookup p q h cs _ s hs]
  exact lookupFile_write_other _ _ _ _ h

theorem chunkStatesFrom_getLast (p : String) :
    ∀ (cs : List (List Nat)) (fs : FS),
      (chunkStatesFrom p fs cs).getLast? = some (writeChunks fs p cs)
  | [], fs => rfl
  | c :: cs, fs => by
      have hne : chunkStatesFrom p (appendChunk fs p c) cs ≠ [] := by
        cases cs <;> simp [chunkStatesFrom]
      rw [chunkStatesFrom, List.getLast?_cons, chunkStatesFrom_getLast p cs _]
      simp [hne, writeChunks, List.foldl_cons]

/-! ### Claim theorems -/

/-- C1 (code bug evidence): in `extract_archive`'s zip branch with
`force=false`, a pre-existing file at a member's target path is NOT left
unchanged: the existence check only skips parent-directory creation, and
the following `z.extractall(dest_dir)` overwrites the file.  Concretely, a
zip holding member `a.txt` with byte `1` extracted over a destination that
already holds `dest/a.txt` with byte `0` ends with the file content `1`,
while the claim (and the `# skip` comment in the source) say it stays `0`. -/
theorem c1_zip_existing_member_overwritten :
    lookupFile (extract_archive [("a.txt", [1])] "release.zip"
        ⟨[("dest/a.txt", [0])], ["dest"]⟩ "dest" false).1 "dest/a.txt" = some [1]
    ∧ (extract_archive [("a.txt", [1])] "release.zip"
        ⟨[("dest/a.txt", [0])], ["dest"]⟩ "dest" false).2 = Except.ok ()
    ∧ lookupFile (⟨[("dest/a.txt", [0])], ["dest"]⟩ : FS) "dest/a.txt" = some [0] := by
  exact ⟨rfl, rfl, rfl⟩

/-- C6: for an archive path whose name ends in none of `.zip`, `.tar.gz`,
`.tgz`, `.tar`, `extract_archive` raises the "Unsupported archive type"
error and returns the file system untouched (no files written). -/
theorem c6_unsupported_archive_type (members : List (String × List Nat)) (fs : FS)
    (path dest : String) (force : Bool)
    (h1 : strEndsWith path ".zip" = false) (h2 : strEndsWith path ".tar.gz" = false)
    (h3 : strEndsWith path ".tgz" = false) (h4 : strEndsWith path ".tar" = false) :
    extract_archive members path fs dest force
      = (fs, Except.error ("Unsupported archive type: " ++ path)) := by
  simp [extract_archive, h1, h2, h3, h4]

/-- Witness for C6 at the concrete path `release.rar`. -/
theorem c6_unsupported_archive_type_witness :
    extract_archive [("a.txt", [1])] "release.rar" ⟨[], []⟩ "dest" false
      = (⟨[], []⟩, Except.error ("Unsupported archive type: " ++ "release.rar")) :=
  c6_unsupported_archive_type [("a.txt", [1])] ⟨[], []⟩ "release.rar" "dest" false
    rfl rfl rfl rfl

/-- C7: when the destination already exists and `force` is false, both
`download_url` and `download_file` return immediately: zero HTTP requests,
the file system (hence the existing file's bytes) unchanged, and the
existing path (resp. `True`) returned — the idempotent skip. -/
theorem c7_skip_existing_idempotent (netU netF : Net) (fs : FS) (dest : String)
    (h : fsExists fs dest = true) :
    download_url netU fs dest false = ⟨fs, 0, Except.ok dest⟩
    ∧ download_file netF fs dest false = ⟨fs, 0, Except.ok true⟩ := by
  constructor
  · simp [download_url, h]
  · simp [download_file, h]

/-- Witness for C7: a destination that exists with content `[7]`. -/
theorem c7_skip_existing_idempotent_witness :
    download_url Net.httpStatusError ⟨[("a/b", [7])], []⟩ "a/b" false
      = ⟨⟨[("a/b", [7])], []⟩, 0, Except.ok "a/b"⟩
    ∧ download_file Net.httpStatusError ⟨[("a/b", [7])], []⟩ "a/b" false
      = ⟨⟨[("a/b", [7])], []⟩, 0, Except.ok true⟩ :=
  c7_skip_existing_idempotent Net.httpStatusError Net.httpStatusError
    ⟨[("a/b", [7])], []⟩ "a/b" rfl

/-- C2 (counterexample): a transport error in the middle of the stream is not
an `HTTPError`, so `download_url`'s cleanup handler does not run: after the
failure the partial file `d/x.part` still exists (content `[1]`), refuting
the claim that any transport error removes the partial file. -/
theorem c2_counterexample_partial_remains :
    lookupFile (download_url (Net.midStream [[1]]) ⟨[], []⟩ "d/x" false).fs "d/x.part"
      = some [1]
    ∧ (download_url (Net.midStream [[1]]) ⟨[], []⟩ "d/x" false).result
      = Except.error DlErr.transport := by
  exact ⟨rfl, rfl⟩

/-- C2 (amended): on any failing transfer (HTTP-status error, connection
error, or mid-stream transport error), both `download_url` and
`download_file` surface the failure to the caller (`download_url` by a
propagating exception, `download_file` by returning `False` for the caught
HTTP-status error and by a propagating exception otherwise), open at most
one HTTP request (no retry), and never create or change the file at the
final destination path; the partial temporary file is removed only for the
HTTP-status error — a mid-stream transport error leaves it in place. -/
theorem c2_failure_cleanup_amended (net : Net) (fs : FS) (dest : String) (force : Bool)
    (hnet : net = Net.httpStatusError ∨ net = Net.connectError
      ∨ ∃ cs, net = Net.midStream cs)
    (hskip : fsExists fs dest = false ∨ force = true)
    (hdir : dirname dest ≠ "") :
    (∃ e, (download_url net fs dest force).result = Except.error e)
    ∧ ((download_file net fs dest force).result = Except.ok false
        ∨ ∃ e, (download_file net fs dest force).result = Except.error e)
    ∧ (download_url net fs dest force).requests ≤ 1
    ∧ (download_file net fs dest force).requests ≤ 1
    ∧ lookupFile (download_url net fs dest force).fs dest = lookupFile fs dest
    ∧ lookupFile (download_file net fs dest force).fs dest = lookupFile fs dest
    ∧ (net = Net.httpStatusError →
        lookupFile (download_url net fs dest force).fs (dest ++ ".part") = none
        ∧ lookupFile (download_file net fs dest force).fs (dest ++ ".tmp") = none) := by
  have hcond : (fsExists fs dest && !force) = false := by
    rcases hskip with h | h
    · simp [h]
    · simp [h]
  have hpart : dest ≠ dest ++ ".part" := str_ne_append_of_ne_empty dest ".part" (by decide)
  have htmp : dest ≠ dest ++ ".tmp" := str_ne_append_of_ne_empty dest ".tmp" (by decide)
  rcases hnet with hn | hn | ⟨cs, hn⟩ <;> subst hn
  · -- HTTPError raised by urlopen: caught by both functions
    refine ⟨⟨DlErr.httpStatus, ?_⟩, Or.inl ?_, ?_, ?_, ?_, ?_, fun _ => ⟨?_, ?_⟩⟩ <;>
      simp only [download_url, download_file, hcond, Bool.false_eq_true, if_false,
        hdir, if_neg hdir]
    · exact Nat.le_refl 1
    · exact Nat.le_refl 1
    · split
      · exact lookupFile_remove_other _ _ _ hpart
      · rfl
    · split
      · exact lookupFile_remove_other _ _ _ htmp
      · rfl
    · split
      · exact lookupFile_remove_self _ _
      · next hex => exact lookupFile_none_of_not_exists _ _ (by simpa using hex)
    · split
      · exact lookupFile_remove_self _ _
      · next hex => exact lookupFile_none_of_not_exists _ _ (by simpa using hex)
  · -- URLError before any file was opened: propagates uncaught
    refine ⟨⟨DlErr.transport, ?_⟩, Or.inr ⟨DlErr.transport, ?_⟩, ?_, ?_, ?_, ?_,
        fun hcontra => by cases hcontra⟩ <;>
      simp only [download_url, download_file, hcond, Bool.false_eq_true, if_false,
        hdir, if_neg hdir]
    · exact Nat.le_refl 1
    · exact Nat.le_refl 1
    · rfl
    · rfl
  · -- mid-stream transport error: propagates uncaught, .part/.tmp stays
    refine ⟨⟨DlErr.transport, ?_⟩, Or.inr ⟨DlErr.transport, ?_⟩, ?_, ?_, ?_, ?_,
        fun hcontra => by cases hcontra⟩ <;>
      simp only [download_url, download_file, hcond, Bool.false_eq_true, if_false,
        hdir, if_neg hdir]
    · exact Nat.le_refl 1
    · exact Nat.le_refl 1
    · rw [lookupFile_writeChunks_other _ _ hpart]
      exact lookupFile_write_other _ _ _ _ hpart
    · rw [lookupFile_writeChunks_other _ _ htmp]
      exact lookupFile_write_other _ _ _ _ htmp

/-- Witness for the amended C2 at a concrete HTTP-status failure. -/
theorem c2_failure_cleanup_amended_witness :
    (∃ e, (download_url Net.httpStatusError ⟨[], []⟩ "d/x" false).result = Except.error e)
    ∧ ((download_file Net.httpStatusError ⟨[], []⟩ "d/x" false).result = Except.ok false
        ∨ ∃ e, (download_file Net.httpStatusError ⟨[], []⟩ "d/x" false).result
          = Except.error e)
    ∧ (download_url Net.httpStatusError ⟨[], []⟩ "d/x" false).requests ≤ 1
    ∧ (download_file Net.httpStatusError ⟨[], []⟩ "d/x" false).requests ≤ 1
    ∧ lookupFile (download_url Net.httpStatusError ⟨[], []⟩ "d/x" false).fs "d/x"
      = lookupFile ⟨[], []⟩ "d/x"
    ∧ lookupFile (download_file Net.httpStatusError ⟨[], []⟩ "d/x" false).fs "d/x"
      = lookupFile ⟨[], []⟩ "d/x"
    ∧ (Net.httpStatusError = Net.httpStatusError →
        lookupFile (download_url Net.httpStatusError ⟨[], []⟩ "d/x" false).fs ("d/x" ++ ".part")
          = none
        ∧ lookupFile (download_file Net.httpStatusError ⟨[], []⟩ "d/x" false).fs ("d/x" ++ ".tmp")
          = none) :=
  c2_failure_cleanup_amended Net.httpStatusError ⟨[], []⟩ "d/x" false
    (Or.inl rfl) (Or.inl rfl) (by decide)

/-- C3: both downloads stream to the temporary sibling (`<dest>.part` for
`download_url`, `<dest>.tmp` for `download_file`) and create the final
destination only by the rename after the whole stream is consumed: when the
destination does not exist beforehand, it is absent in every intermediate
state of the streaming loop, and after the call it holds exactly the
concatenation of all chunks — never a partial file. -/
theorem c3_temp_write_then_rename (fs : FS) (dest : String) (chunks : List (List Nat))
    (force : Bool) (habs : fsExists fs dest = false) (hdir : dirname dest ≠ "") :
    (∀ s ∈ chunkStates (makedirs fs (dirname dest)) (dest ++ ".part") chunks,
        lookupFile s dest = none)
    ∧ lookupFile (download_url (Net.ok chunks) fs dest force).fs dest
      = some chunks.flatten
    ∧ (∀ s ∈ chunkStates (makedirs fs (dirname dest)) (dest ++ ".tmp") chunks,
        lookupFile s dest = none)
    ∧ lookupFile (download_file (Net.ok chunks) fs dest force).fs dest
      = some chunks.flatten := by
  have hcond : (fsExists fs dest && !force) = false := by simp [habs]
  have hnone : lookupFile fs dest = none := lookupFile_none_of_not_exists fs dest habs
  have hpart : dest ≠ dest ++ ".part" := str_ne_append_of_ne_empty dest ".part" (by decide)
  have htmp : dest ≠ dest ++ ".tmp" := str_ne_append_of_ne_empty dest ".tmp" (by decide)
  refine ⟨?_, ?_, ?_, ?_⟩
  · intro s hs
    rw [chunkStates_lookup_other _ _ hpart chunks _ s hs]
    exact hnone
  · simp only [download_url, hcond, Bool.false_eq_true, if_false, hdir, if_neg hdir]
    have hfull : lookupFile
        (writeChunks (openTrunc (makedirs fs (dirname dest)) (dest ++ ".part"))
          (dest ++ ".part") chunks) (dest ++ ".part")
        = some chunks.flatten := by
      simpa using lookupFile_writeChunks_self (dest ++ ".part") chunks _ []
        (lookupFile_write_self _ _ _)
    rw [fsRename, hfull]
    exact lookupFile_write_self _ _ _
  · intro s hs
    rw [chunkStates_lookup_other _ _ htmp chunks _ s hs]
    exact hnone
  · simp only [download_file, hcond, Bool.false_eq_true, if_false, hdir, if_neg hdir]
    have hfull : lookupFile
        (writeChunks (openTrunc (makedirs fs (dirname dest)) (dest ++ ".tmp"))
          (dest ++ ".tmp") chunks) (dest ++ ".tmp")
        = some chunks.flatten := by
      simpa using lookupFile_writeChunks_self (dest ++ ".tmp") chunks _ []
        (lookupFile_write_self _ _ _)
    rw [fsRename, hfull]
    exact lookupFile_write_self _ _ _

/-- Witness for C3: a fresh destination `d/x` receiving chunks `[1]` and `[2]`. -/
theorem c3_temp_write_then_rename_witness :
    (∀ s ∈ chunkStates (makedirs ⟨[], []⟩ (dirname "d/x")) ("d/x" ++ ".part") [[1], [2]],
        lookupFile s "d/x" = none)
    ∧ lookupFile (download_url (Net.ok [[1], [2]]) ⟨[], []⟩ "d/x" false).fs "d/x"
      = some [[1], [2]].flatten
    ∧ (∀ s ∈ chunkStates (makedirs ⟨[], []⟩ (dirname "d/x")) ("d/x" ++ ".tmp") [[1], [2]],
        lookupFile s "d/x" = none)
    ∧ lookupFile (download_file (Net.ok [[1], [2]]) ⟨[], []⟩ "d/x" false).fs "d/x"
      = some [[1], [2]].flatten :=
  c3_temp_write_then_rename ⟨[], []⟩ "d/x" [[1], [2]] false rfl (by decide)

theorem download_url_err_of_not_ok (net : Net) (fs : FS) (d : String)
    (h : ∀ cs, net ≠ Net.ok cs) :
    ∃ e, (download_url net fs d true).result = Except.error e := by
  by_cases hd : dirname d = ""
  · exact ⟨DlErr.osError, by simp [download_url, hd]⟩
  · cases net with
    | ok cs => exact absurd rfl (h cs)
    | httpStatusError => exact ⟨DlErr.httpStatus, by simp [download_url, hd]⟩
    | connectError => exact ⟨DlErr.transport, by simp [download_url, hd]⟩
    | midStream cs => exact ⟨DlErr.transport, by simp [download_url, hd]⟩

/-- C4: every failure inside the release-archive strategy is caught by
`try_download_release_and_extract`, which returns `False` instead of
raising — for a failing download (any non-complete transfer outcome) and
for an unsupported archive name alike — and whenever it returns `False`
while the strategy was attempted, `main` proceeds to the per-file tail
`fetchRest`, so the exit code is exactly the per-file one and the release
failure never determines it by itself. -/
theorem c4_release_failure_falls_back (members : List (String × List Nat)) (relNet : Net)
    (perNet : String → Bool) (url : String) (fs : FS) (dest : String) (force : Bool)
    (args : FetchArgs) (env : OsEnv) :
    ((∀ cs, relNet ≠ Net.ok cs) →
      (try_download_release_and_extract members relNet url fs dest force).2 = false)
    ∧ (strEndsWith (releaseFilename url) ".zip" = false →
        strEndsWith (releaseFilename url) ".tar.gz" = false →
        strEndsWith (releaseFilename url) ".tgz" = false →
        strEndsWith (releaseFilename url) ".tar" = false →
      (try_download_release_and_extract members relNet url fs dest force).2 = false)
    ∧ ((try_download_release_and_extract members relNet (releaseUrlOf args env)
          fs args.dest args.force).2 = false →
      fetchMain members relNet perNet args env fs = fetchRest perNet args env) := by
  refine ⟨?_, ?_, ?_⟩
  · intro h
    rcases download_url_err_of_not_ok relNet (makedirs fs tmpDirName)
      (releaseFilename url) h with ⟨e, he⟩
    simp [try_download_release_and_extract, he]
  · intro h1 h2 h3 h4
    rcases hres : (download_url relNet (makedirs fs tmpDirName)
        (releaseFilename url) true).result with e | v
    · simp [try_download_release_and_extract, hres]
    · simp [try_download_release_and_extract, hres, extract_archive, h1, h2, h3, h4]
  · intro hfail
    by_cases hc : (pyTruthy (releaseUrlOf args env) && !args.skipRelease) = true
    · simp [fetchMain, hc, hfail]
    · simp [fetchMain, hc]

/-- Witness for C4: a failing (HTTP 404-style) release download at the
built-in release URL makes the orchestrator fall back to the per-file tail. -/
theorem c4_release_failure_falls_back_witness :
    (try_download_release_and_extract [("a.txt", [1])] Net.httpStatusError
        (releaseUrlOf ⟨"main", none, "assets", false, false, none⟩ ⟨none, none, none, none⟩)
        ⟨[], []⟩ "assets" false).2 = false
    ∧ fetchMain [("a.txt", [1])] Net.httpStatusError (fun _ => false)
        ⟨"main", none, "assets", false, false, none⟩ ⟨none, none, none, none⟩ ⟨[], []⟩
      = fetchRest (fun _ => false) ⟨"main", none, "assets", false, false, none⟩
        ⟨none, none, none, none⟩ := by
  have h := c4_release_failure_falls_back [("a.txt", [1])] Net.httpStatusError
    (fun _ => false)
    (releaseUrlOf ⟨"main", none, "assets", false, false, none⟩ ⟨none, none, none, none⟩)
    ⟨[], []⟩ "assets" false
    ⟨"main", none, "assets", false, false, none⟩ ⟨none, none, none, none⟩
  have hfail := h.1 (fun cs hcs => by cases hcs)
  exact ⟨hfail, h.2.2 hfail⟩

theorem runRequiredList_all (net : String → Bool) :
    ∀ us, (∀ u ∈ us, net u = true) → runRequiredList net us = (us, none)
  | [], _ => rfl
  | u :: us, h => by
      rw [runRequiredList, if_pos (h u (List.mem_cons_self u us)),
        runRequiredList_all net us (fun v hv => h v (List.mem_cons_of_mem u hv))]

theorem runRequiredList_fail (net : String → Bool) :
    ∀ us, (∃ u ∈ us, net u = false) →
      ∃ v, (runRequiredList net us).2 = some v ∧ net v = false
  | [], h => by
      rcases h with ⟨u, hu, _⟩
      exact absurd hu (List.not_mem_nil u)
  | u :: us, h => by
      by_cases hu : net u = true
      · have hus : ∃ v ∈ us, net v = false := by
          rcases h with ⟨v, hv, hnv⟩
          rcases List.mem_cons.mp hv with rfl | hv'
          · rw [hu] at hnv; cases hnv
          · exact ⟨v, hv', hnv⟩
        rcases runRequiredList_fail net us hus with ⟨v, hv2, hnv⟩
        refine ⟨v, ?_, hnv⟩
        rw [runRequiredList, if_pos hu]
        exact hv2
      · refine ⟨u, ?_, Bool.eq_false_iff.mpr hu⟩
        rw [runRequiredList, if_neg hu]

theorem runRequiredList_pre (net : String → Bool) :
    ∀ us, ∃ rest, us = (runRequiredList net us).1 ++ rest
  | [] => ⟨[], rfl⟩
  | u :: us => by
      by_cases hu : net u = true
      · rcases runRequiredList_pre net us with ⟨rest, hrest⟩
        refine ⟨rest, ?_⟩
        rw [runRequiredList, if_pos hu, List.cons_append, ← hrest]
      · exact ⟨us, by rw [runRequiredList, if_neg hu]; rfl⟩

theorem download_per_file_eq (net : String → Bool) (hfBase revision : String)
    (styles : Option String) (baseCs : List Char)
    (hfmt : pyFormatRev hfBase.toList revision.toList = some baseCs) :
    download_per_file net hfBase revision styles
      = match (runRequiredList net (requiredUrls (String.mk baseCs))).2 with
        | some u =>
            ⟨(runRequiredList net (requiredUrls (String.mk baseCs))).1, [], [],
              Except.error u⟩
        | none =>
            ⟨(runRequiredList net (requiredUrls (String.mk baseCs))).1,
              (requestedStyles styles).map (styleUrl (String.mk baseCs)),
              (requestedStyles styles).filter
                (fun st => !net (styleUrl (String.mk baseCs) st)),
              Except.ok ()⟩ := by
  unfold download_per_file
  rw [hfmt]

/-- C5: in `download_per_file`, when every required ONNX/JSON download
succeeds the call returns normally, every requested voice style is still
attempted no matter how many of them fail (the failures are only collected
as warnings); when some required download fails, an exception for a failing
URL propagates out, no voice style is attempted, and the required loop
stops early (the attempted URLs form a proper prefix of the required list). -/
theorem c5_per_file_error_policy (net : String → Bool) (hfBase revision : String)
    (styles : Option String) (baseCs : List Char)
    (hfmt : pyFormatRev hfBase.toList revision.toList = some baseCs) :
    ((∀ u ∈ requiredUrls (String.mk baseCs), net u = true) →
      (download_per_file net hfBase revision styles).outcome = Except.ok ()
      ∧ (download_per_file net hfBase revision styles).requiredAttempted
          = requiredUrls (String.mk baseCs)
      ∧ (download_per_file net hfBase revision styles).styleAttempted
          = (requestedStyles styles).map (styleUrl (String.mk baseCs))
      ∧ (download_per_file net hfBase revision styles).warnings
          = (requestedStyles styles).filter
              (fun st => !net (styleUrl (String.mk baseCs) st)))
    ∧ ((∃ u ∈ requiredUrls (String.mk baseCs), net u = false) →
      (∃ v, (download_per_file net hfBase revision styles).outcome = Except.error v
          ∧ net v = false)
      ∧ (download_per_file net hfBase revision styles).styleAttempted = []
      ∧ ∃ rest, requiredUrls (String.mk baseCs)
          = (download_per_file net hfBase revision styles).requiredAttempted ++ rest) := by
  have heq := download_per_file_eq net hfBase revision styles baseCs hfmt
  constructor
  · intro hall
    have hrun := runRequiredList_all net (requiredUrls (String.mk baseCs)) hall
    rw [heq, hrun]
    exact ⟨rfl, rfl, rfl, rfl⟩
  · intro hex
    rcases runRequiredList_fail net (requiredUrls (String.mk baseCs)) hex with ⟨v, hv, hnv⟩
    refine ⟨⟨v, ?_, hnv⟩, ?_, ?_⟩
    · rw [heq, hv]
    · rw [heq, hv]
    · rcases runRequiredList_pre net (requiredUrls (String.mk baseCs)) with ⟨rest, hrest⟩
      refine ⟨rest, ?_⟩
      rw [heq, hv]
      exact hrest

/-- Witness for C5: all-successful network, one requested style. -/
theorem c5_per_file_error_policy_witness :
    (download_per_file (fun _ => true) defaultHfBase "main" (some "M1")).outcome
      = Except.ok ()
    ∧ (download_per_file (fun _ => true) defaultHfBase "main" (some "M1")).requiredAttempted
      = requiredUrls "https://huggingface.co/Supertone/supertonic/resolve/main/"
    ∧ (download_per_file (fun _ => true) defaultHfBase "main" (some "M1")).styleAttempted
      = (requestedStyles (some "M1")).map
          (styleUrl "https://huggingface.co/Supertone/supertonic/resolve/main/")
    ∧ (download_per_file (fun _ => true) defaultHfBase "main" (some "M1")).warnings
      = (requestedStyles (some "M1")).filter
          (fun st => !(fun _ => true)
            (styleUrl "https://huggingface.co/Supertone/supertonic/resolve/main/" st)) :=
  (c5_per_file_error_policy (fun _ => true) defaultHfBase "main" (some "M1")
    "https://huggingface.co/Supertone/supertonic/resolve/main/".toList rfl).1
    (fun _ _ => rfl)

theorem fetchRest_eq_two (perNet : String → Bool) (args : FetchArgs) (env : OsEnv)
    (h : pyFormatRev (normalizeHfBase (hfBaseRaw env)).toList args.revision.toList = none) :
    fetchRest perNet args env = 2 := by
  show (match pyFormatRev (normalizeHfBase (hfBaseRaw env)).toList args.revision.toList with
    | none => 2
    | some _ =>
      match (download_per_file perNet (normalizeHfBase (hfBaseRaw env)) args.revision
          args.style).outcome with
      | Except.error _ => 3
      | Except.ok _ => 0) = 2
  rw [h]

theorem fetchRest_eq_zero (perNet : String → Bool) (args : FetchArgs) (env : OsEnv)
    (b : List Char)
    (hf : pyFormatRev (normalizeHfBase (hfBaseRaw env)).toList args.revision.toList = some b)
    (ho : (download_per_file perNet (normalizeHfBase (hfBaseRaw env)) args.revision
        args.style).outcome = Except.ok ()) :
    fetchRest perNet args env = 0 := by
  show (match pyFormatRev (normalizeHfBase (hfBaseRaw env)).toList args.revision.toList with
    | none => 2
    | some _ =>
      match (download_per_file perNet (normalizeHfBase (hfBaseRaw env)) args.revision
          args.style).outcome with
      | Except.error _ => 3
      | Except.ok _ => 0) = 0
  rw [hf, ho]

theorem fetchRest_eq_three (perNet : String → Bool) (args : FetchArgs) (env : OsEnv)
    (b : List Char) (e : String)
    (hf : pyFormatRev (normalizeHfBase (hfBaseRaw env)).toList args.revision.toList = some b)
    (ho : (download_per_file perNet (normalizeHfBase (hfBaseRaw env)) args.revision
        args.style).outcome = Except.error e) :
    fetchRest perNet args env = 3 := by
  show (match pyFormatRev (normalizeHfBase (hfBaseRaw env)).toList args.revision.toList with
    | none => 2
    | some _ =>
      match (download_per_file perNet (normalizeHfBase (hfBaseRaw env)) args.revision
          args.style).outcome with
      | Except.error _ => 3
      | Except.ok _ => 0) = 3
  rw [hf, ho]

theorem fetchMain_eq_fetchRest_of (members : List (String × List Nat)) (relNet : Net)
    (perNet : String → Bool) (args : FetchArgs) (env : OsEnv) (fs : FS)
    (h : ¬((pyTruthy (releaseUrlOf args env) && !args.skipRelease) = true
      ∧ (try_download_release_and_extract members relNet (releaseUrlOf args env)
          fs args.dest args.force).2 = true)) :
    fetchMain members relNet perNet args env fs = fetchRest perNet args env := by
  by_cases hatt : (pyTruthy (releaseUrlOf args env) && !args.skipRelease) = true
  · have hrel : (try_download_release_and_extract members relNet (releaseUrlOf args env)
        fs args.dest args.force).2 = false := by
      cases hb : (try_download_release_and_extract members relNet (releaseUrlOf args env)
          fs args.dest args.force).2
      · rfl
      · exact absurd ⟨hatt, hb⟩ h
    simp [fetchMain, hatt, hrel]
  · simp [fetchMain, hatt]

/-- C8: exit-code contract of both entry points.  For the fetch tool:
`main` returns 0 exactly when the release strategy was attempted and
succeeded or, otherwise, the base-URL template is valid and the per-file
strategy returned normally; when the attempted release strategy fails and
the per-file strategy then raises, the code is 3; when the fallback is
reached with an invalid template, the code is 2; and every run returns 0,
2 or 3.  For the pack tool: `main` returns 0 exactly when every download
and the archive creation succeeded, 1 when some download failed, and 2
when downloads succeeded but archive creation failed — so within each tool
the failure categories carry pairwise-distinct nonzero codes. -/
theorem c8_exit_codes (members : List (String × List Nat)) (relNet : Net)
    (perNet : String → Bool) (args : FetchArgs) (env : OsEnv) (fs : FS) (e : String)
    (bv : List Char) (dl : String → Bool) (archiveOk : Bool) :
    (fetchMain members relNet perNet args env fs = 0
      ∨ fetchMain members relNet perNet args env fs = 2
      ∨ fetchMain members relNet perNet args env fs = 3)
    ∧ (fetchMain members relNet perNet args env fs = 0 ↔
        ((pyTruthy (releaseUrlOf args env) && !args.skipRelease) = true
          ∧ (try_download_release_and_extract members relNet (releaseUrlOf args env)
              fs args.dest args.force).2 = true)
        ∨ (¬((pyTruthy (releaseUrlOf args env) && !args.skipRelease) = true
            ∧ (try_download_release_and_extract members relNet (releaseUrlOf args env)
                fs args.dest args.force).2 = true)
          ∧ (pyFormatRev (normalizeHfBase (hfBaseRaw env)).toList
              args.revision.toList).isSome = true
          ∧ (download_per_file perNet (normalizeHfBase (hfBaseRaw env)) args.revision
              args.style).outcome = Except.ok ()))
    ∧ ((pyTruthy (releaseUrlOf args env) && !args.skipRelease) = true →
        (try_download_release_and_extract members relNet (releaseUrlOf args env)
            fs args.dest args.force).2 = false →
        pyFormatRev (normalizeHfBase (hfBaseRaw env)).toList args.revision.toList
          = some bv →
        (download_per_file perNet (normalizeHfBase (hfBaseRaw env)) args.revision
            args.style).outcome = Except.error e →
        fetchMain members relNet perNet args env fs = 3)
    ∧ (¬((pyTruthy (releaseUrlOf args env) && !args.skipRelease) = true
          ∧ (try_download_release_and_extract members relNet (releaseUrlOf args env)
              fs args.dest args.force).2 = true) →
        pyFormatRev (normalizeHfBase (hfBaseRaw env)).toList args.revision.toList = none →
        fetchMain members relNet perNet args env fs = 2)
    ∧ ((packMain dl archiveOk).exit = 0 ↔
        (packMain dl archiveOk).failed = [] ∧ archiveOk = true)
    ∧ ((packMain dl archiveOk).failed ≠ [] → (packMain dl archiveOk).exit = 1)
    ∧ ((packMain dl archiveOk).failed = [] → archiveOk = false →
        (packMain dl archiveOk).exit = 2) := by
  have hpack : ((packMain dl archiveOk).exit = 0 ↔
        (packMain dl archiveOk).failed = [] ∧ archiveOk = true)
      ∧ ((packMain dl archiveOk).failed ≠ [] → (packMain dl archiveOk).exit = 1)
      ∧ ((packMain dl archiveOk).failed = [] → archiveOk = false →
        (packMain dl archiveOk).exit = 2) := by
    unfold packMain
    by_cases hf : (packDownloads dl).2 = []
    · cases archiveOk <;> simp [hf]
    · simp [hf]
  by_cases hra : (pyTruthy (releaseUrlOf args env) && !args.skipRelease) = true
      ∧ (try_download_release_and_extract members relNet (releaseUrlOf args env)
          fs args.dest args.force).2 = true
  · have h0 : fetchMain members relNet perNet args env fs = 0 := by
      simp [fetchMain, hra.1, hra.2]
    refine ⟨Or.inl h0, ?_, ?_, ?_, hpack.1, hpack.2.1, hpack.2.2⟩
    · exact ⟨fun _ => Or.inl hra, fun _ => h0⟩
    · intro _ hrel _ _
      rw [hra.2] at hrel
      cases hrel
    · intro hcon _
      exact absurd hra hcon
  · have hmain := fetchMain_eq_fetchRest_of members relNet perNet args env fs hra
    rcases hfmt : pyFormatRev (normalizeHfBase (hfBaseRaw env)).toList
        args.revision.toList with _ | b
    · have h2 : fetchMain members relNet perNet args env fs = 2 := by
        rw [hmain]
        exact fetchRest_eq_two perNet args env hfmt
      refine ⟨Or.inr (Or.inl h2), ?_, ?_, fun _ _ => h2, hpack.1, hpack.2.1, hpack.2.2⟩
      · constructor
        · intro h0
          exact absurd (h0.symm.trans h2) (by decide)
        · rintro (hra' | ⟨_, hsome, _⟩)
          · exact absurd hra' hra
          · simp at hsome
      · intro _ _ hsome _
        exact Option.noConfusion hsome
    · cases hout : (download_per_file perNet (normalizeHfBase (hfBaseRaw env)) args.revision
          args.style).outcome with
      | error err =>
          have h3 : fetchMain members relNet perNet args env fs = 3 := by
            rw [hmain]
            exact fetchRest_eq_three perNet args env b err hfmt hout
          refine ⟨Or.inr (Or.inr h3), ?_, fun _ _ _ _ => h3, ?_,
            hpack.1, hpack.2.1, hpack.2.2⟩
          · constructor
            · intro h0
              exact absurd (h0.symm.trans h3) (by decide)
            · rintro (hra' | ⟨_, _, hok⟩)
              · exact absurd hra' hra
              · exact Except.noConfusion hok
          · intro _ hnone
            exact Option.noConfusion hnone
      | ok u =>
          cases u
          have h0 : fetchMain members relNet perNet args env fs = 0 := by
            rw [hmain]
            exact fetchRest_eq_zero perNet args env b hfmt hout
          refine ⟨Or.inl h0, ?_, ?_, ?_, hpack.1, hpack.2.1, hpack.2.2⟩
          · exact ⟨fun _ => Or.inr ⟨hra, rfl, rfl⟩, fun _ => h0⟩
          · intro _ _ _ herr
            exact Except.noConfusion herr
          · intro _ hnone
            exact Option.noConfusion hnone

/-- Witness for C8: with every network call failing, the fetch tool exits 3
and the pack tool exits 1. -/
theorem c8_exit_codes_witness :
    fetchMain [] Net.httpStatusError (fun _ => false)
        ⟨"main", none, "assets", false, false, none⟩ ⟨none, none, none, none⟩ ⟨[], []⟩ = 3
    ∧ (packMain (fun _ => false) true).exit = 1 := by
  have h := c8_exit_codes [] Net.httpStatusError (fun _ => false)
    ⟨"main", none, "assets", false, false, none⟩ ⟨none, none, none, none⟩ ⟨[], []⟩
    "https://huggingface.co/Supertone/supertonic/resolve/main/onnx/duration_predictor.onnx"
    "https://huggingface.co/Supertone/supertonic/resolve/main/".toList
    (fun _ => false) true
  exact ⟨h.2.2.1 rfl rfl rfl rfl, h.2.2.2.2.2.1 (by decide)⟩

theorem splitCommaAux_pieces_ws :
    ∀ (cs acc : List Char), (∀ c ∈ cs, c = ',' ∨ isPyWs c = true) →
      (∀ c ∈ acc, isPyWs c = true) →
      ∀ p ∈ splitCommaAux cs acc, ∀ c ∈ p, isPyWs c = true
  | [], acc, _, hacc => by
      intro p hp c hc
      simp only [splitCommaAux, List.mem_singleton] at hp
      subst hp
      exact hacc c (List.mem_reverse.mp hc)
  | ch :: cs, acc, hcs, hacc => by
      intro p hp c hc
      by_cases hch : ch = ','
      · rw [splitCommaAux, if_pos hch] at hp
        rcases List.mem_cons.mp hp with rfl | hp'
        · exact hacc c (List.mem_reverse.mp hc)
        · exact splitCommaAux_pieces_ws cs []
            (fun d hd => hcs d (List.mem_cons_of_mem _ hd))
            (fun d hd => absurd hd (List.not_mem_nil d)) p hp' c hc
      · rw [splitCommaAux, if_neg hch] at hp
        refine splitCommaAux_pieces_ws cs (ch :: acc)
          (fun d hd => hcs d (List.mem_cons_of_mem _ hd)) ?_ p hp c hc
        intro d hd
        rcases List.mem_cons.mp hd with rfl | hd'
        · rcases hcs d (List.mem_cons_self _ _) with h1 | h1
          · exact absurd h1 hch
          · exact h1
        · exact hacc d hd'

theorem pyStripChars_of_all_ws (p : List Char) (h : ∀ c ∈ p, isPyWs c = true) :
    pyStripChars p = [] := by
  have h1 : p.dropWhile isPyWs = [] := List.dropWhile_eq_nil_iff.mpr h
  simp [pyStripChars, h1]

theorem parseStyles_blank (s : String)
    (h : (s.toList.all fun c => c == ',' || isPyWs c) = true) :
    parseStyles s = [] := by
  have hall : ∀ c ∈ s.toList, c = ',' ∨ isPyWs c = true := by
    intro c hc
    have h2 := List.all_eq_true.mp h c hc
    simp only [Bool.or_eq_true] at h2
    rcases h2 with h1 | h1
    · exact Or.inl (by simpa using h1)
    · exact Or.inr h1
  have hpieces := splitCommaAux_pieces_ws s.toList [] hall
    (fun d hd => absurd hd (List.not_mem_nil d))
  have hgen : ∀ ps : List (List Char),
      (∀ p ∈ ps, ∀ c ∈ p, isPyWs c = true) →
      (ps.map (fun p => String.mk (pyStripChars p))).filter (fun t => !(t == "")) = [] := by
    intro ps
    induction ps with
    | nil => intro _; rfl
    | cons p ps ih =>
        intro hps
        have hp : pyStripChars p = [] :=
          pyStripChars_of_all_ws p (hps p (List.mem_cons_self _ _))
        rw [List.map_cons, List.filter_cons, hp]
        simp only [show ((String.mk ([] : List Char) == "") = true) from rfl,
          Bool.not_true, if_false]
        exact ih (fun q hq => hps q (List.mem_cons_of_mem _ hq))
  exact hgen (pySplitComma s.toList) hpieces

/-- C9 (counterexample): supplying the explicit style string naming all ten
default styles makes `download_per_file` fetch the full default set even
though the `styles` argument is present, refuting "fetched only when the
styles argument is absent". -/
theorem c9_counterexample_full_list_explicit :
    requestedStyles (some "M1,M2,M3,M4,M5,F1,F2,F3,F4,F5") = default_styles
    ∧ (download_per_file (fun _ => true) defaultHfBase "main"
          (some "M1,M2,M3,M4,M5,F1,F2,F3,F4,F5")).styleAttempted
      = (download_per_file (fun _ => true) defaultHfBase "main" none).styleAttempted
    ∧ (some "M1,M2,M3,M4,M5,F1,F2,F3,F4,F5" : Option String) ≠ none := by
  exact ⟨rfl, rfl, by decide⟩

/-- C9 (amended): the default fallback list of ten voice styles is used
exactly when `styles is None` (an explicitly supplied string can also name
those same ten styles); and when the supplied string contains only commas
and whitespace, the requested set is empty — zero voice-style downloads. -/
theorem c9_styles_parsing_amended :
    requestedStyles none = default_styles
    ∧ default_styles.length = 10
    ∧ ∀ s : String, (s.toList.all fun c => c == ',' || isPyWs c) = true →
        requestedStyles (some s) = [] := by
  refine ⟨rfl, rfl, ?_⟩
  intro s h
  exact parseStyles_blank s h

/-- Witness for the amended C9 at the blank-ish string `" ,, "`. -/
theorem c9_styles_parsing_amended_witness :
    (" ,, ".toList.all fun c => c == ',' || isPyWs c) = true
    ∧ requestedStyles (some " ,, ") = [] :=
  ⟨by decide, c9_styles_parsing_amended.2.2 " ,, " (by decide)⟩

theorem packFold_spec (dl : String → Bool) :
    ∀ (l att fl : List String),
      l.foldl (fun p f => (p.1 ++ [f], if dl f then p.2 else p.2 ++ [f])) (att, fl)
        = (att ++ l, fl ++ l.filter (fun f => !dl f))
  | [], att, fl => by simp
  | f :: l, att, fl => by
      rw [List.foldl_cons]
      by_cases hf : dl f = true <;>
        simp [hf, packFold_spec dl l, List.filter_cons, List.append_assoc]

theorem packDownloads_spec (dl : String → Bool) :
    packDownloads dl = (ALL_FILES, ALL_FILES.filter (fun f => !dl f)) := by
  unfold packDownloads
  rw [packFold_spec dl ALL_FILES [] []]
  simp

theorem packDownloadLoop_cons (dlNet : String → Net) (sdir : String) (force : Bool)
    (fs : FS) (f : String) (rest : List String) :
    packDownloadLoop dlNet sdir force fs (f :: rest)
      = (match (download_file (dlNet f) fs (pathJoin sdir f) force).result with
        | Except.error e =>
            ⟨(download_file (dlNet f) fs (pathJoin sdir f) force).fs, [f], [], some e⟩
        | Except.ok b =>
            ⟨(packDownloadLoop dlNet sdir force
                (download_file (dlNet f) fs (pathJoin sdir f) force).fs rest).fs,
              f :: (packDownloadLoop dlNet sdir force
                (download_file (dlNet f) fs (pathJoin sdir f) force).fs rest).attempted,
              if b then (packDownloadLoop dlNet sdir force
                  (download_file (dlNet f) fs (pathJoin sdir f) force).fs rest).failed
                else f :: (packDownloadLoop dlNet sdir force
                  (download_file (dlNet f) fs (pathJoin sdir f) force).fs rest).failed,
              (packDownloadLoop dlNet sdir force
                (download_file (dlNet f) fs (pathJoin sdir f) force).fs rest).exc⟩
          : PackLoopResult) := rfl

theorem packDownloadLoop_spec (dlNet : String → Net) (sdir : String) (force : Bool) :
    ∀ (l : List String) (fs : FS),
      ((packDownloadLoop dlNet sdir force fs l).exc = none →
        (packDownloadLoop dlNet sdir force fs l).attempted = l)
      ∧ (∃ rest, l = (packDownloadLoop dlNet sdir force fs l).attempted ++ rest)
      ∧ (packDownloadLoop dlNet sdir force fs l).failed.Sublist
          (packDownloadLoop dlNet sdir force fs l).attempted
  | [], fs => ⟨fun _ => rfl, ⟨[], rfl⟩, List.Sublist.slnil⟩
  | f :: rest, fs => by
      rw [packDownloadLoop_cons]
      cases hres : (download_file (dlNet f) fs (pathJoin sdir f) force).result with
      | error e =>
          refine ⟨fun h => Option.noConfusion h, ⟨rest, rfl⟩, ?_⟩
          exact List.nil_sublist _
      | ok b =>
          have ih := packDownloadLoop_spec dlNet sdir force rest
            (download_file (dlNet f) fs (pathJoin sdir f) force).fs
          refine ⟨fun h => congrArg (f :: ·) (ih.1 h), ?_, ?_⟩
          · rcases ih.2.1 with ⟨r', hr'⟩
            exact ⟨r', by rw [List.cons_append, ← hr']⟩
          · cases b
            · exact List.Sublist.cons₂ f ih.2.2
            · exact List.Sublist.cons f ih.2.2

/-- C10 (counterexample): a transport failure that is not an `HTTPError`
(here a connection error on the very first manifest entry) propagates out of
`download_file` and aborts `main`'s loop: only the first entry of
`ALL_FILES` is attempted, the remaining fifteen (e.g.
`onnx/duration_predictor.onnx`) never are, and `main` returns no exit code
at all — refuting "a failed download of one manifest file does not stop the
run", "every entry of ALL_FILES is attempted exactly once" and "returns exit
code 1 iff at least one download failed". -/
theorem c10_counterexample_transport_aborts :
    (packMainFull (fun _ => Net.connectError) "/tmp/supertonic_build" false true
        ⟨[], []⟩).loop.attempted = ["onnx/text_encoder.onnx"]
    ∧ (packMainFull (fun _ => Net.connectError) "/tmp/supertonic_build" false true
        ⟨[], []⟩).loop.attempted ≠ ALL_FILES
    ∧ "onnx/duration_predictor.onnx" ∈ ALL_FILES
    ∧ "onnx/duration_predictor.onnx" ∉ (packMainFull (fun _ => Net.connectError)
        "/tmp/supertonic_build" false true ⟨[], []⟩).loop.attempted
    ∧ (packMainFull (fun _ => Net.connectError) "/tmp/supertonic_build" false true
        ⟨[], []⟩).exit = none := by
  exact ⟨rfl, by decide, by decide, by decide, rfl⟩

/-- C10 (amended): in the pack tool's `main`, a download failure that
`download_file` itself reports — a caught `HTTPError`, returned as `False`
— does not stop the run: when no exception propagates out of the loop,
every entry of `ALL_FILES` is attempted exactly once (the manifest has no
duplicates), the failed entries are accumulated as a subsequence of the
attempted ones, and `main` returns exit code 1 (before any archive
creation) iff at least one download failed; but a transport error other
than an `HTTPError` propagates out of `download_file` and aborts the loop:
the attempted entries form a prefix of `ALL_FILES`, no archive creation is
attempted, and `main` returns no exit code at all. -/
theorem c10_pack_download_phase_amended (dlNet : String → Net) (workDir : String)
    (force archiveOk : Bool) (fs : FS) (e : DlErr) :
    ((packMainFull dlNet workDir force archiveOk fs).loop.exc = none →
        (packMainFull dlNet workDir force archiveOk fs).loop.attempted = ALL_FILES
      ∧ ALL_FILES.Nodup
      ∧ (packMainFull dlNet workDir force archiveOk fs).loop.failed.Sublist
          (packMainFull dlNet workDir force archiveOk fs).loop.attempted
      ∧ ((packMainFull dlNet workDir force archiveOk fs).exit = some 1 ↔
          (packMainFull dlNet workDir force archiveOk fs).loop.failed ≠ [])
      ∧ ((packMainFull dlNet workDir force archiveOk fs).loop.failed ≠ [] →
          (packMainFull dlNet workDir force archiveOk fs).archiveAttempted = false))
    ∧ ((packMainFull dlNet workDir force archiveOk fs).loop.exc = some e →
        (packMainFull dlNet workDir force archiveOk fs).exit = none
      ∧ (packMainFull dlNet workDir force archiveOk fs).archiveAttempted = false
      ∧ ∃ rest, ALL_FILES
          = (packMainFull dlNet workDir force archiveOk fs).loop.attempted ++ rest) := by
  have hspec := packDownloadLoop_spec dlNet (pathJoin workDir "supertonic") force
    ALL_FILES (makedirs fs (pathJoin workDir "supertonic"))
  have hloop : (packMainFull dlNet workDir force archiveOk fs).loop
      = packDownloadLoop dlNet (pathJoin workDir "supertonic") force
          (makedirs fs (pathJoin workDir "supertonic")) ALL_FILES := rfl
  cases hexc : (packDownloadLoop dlNet (pathJoin workDir "supertonic") force
      (makedirs fs (pathJoin workDir "supertonic")) ALL_FILES).exc with
  | none =>
      constructor
      · intro _
        refine ⟨hloop ▸ hspec.1 hexc, by decide, hloop ▸ hspec.2.2, ?_, ?_⟩
        · by_cases hf : (packDownloadLoop dlNet (pathJoin workDir "supertonic") force
              (makedirs fs (pathJoin workDir "supertonic")) ALL_FILES).failed = []
          · have hx : (packMainFull dlNet workDir force archiveOk fs).exit
                = (if archiveOk then some 0 else some 2) := by
              simp only [packMainFull, hexc, hf]
              cases archiveOk <;> rfl
            rw [hloop]
            rw [hx]
            cases archiveOk <;> simp [hf]
          · have hx : (packMainFull dlNet workDir force archiveOk fs).exit = some 1 := by
              simp [packMainFull, hexc, hf]
            rw [hloop, hx]
            simp [hf]
        · intro hf
          rw [hloop] at hf
          have hx : (packMainFull dlNet workDir force archiveOk fs).archiveAttempted
              = false := by
            simp [packMainFull, hexc, hf]
          exact hx
      · intro hsome
        rw [hloop, hexc] at hsome
        exact Option.noConfusion hsome
  | some ex =>
      constructor
      · intro hnone
        rw [hloop, hexc] at hnone
        exact Option.noConfusion hnone
      · intro _
        refine ⟨?_, ?_, ?_⟩
        · simp [packMainFull, hexc]
        · simp [packMainFull, hexc]
        · rcases hspec.2.1 with ⟨rest, hrest⟩
          exact ⟨rest, by rw [hloop]; exact hrest⟩

/-- Witness for the amended C10: with every transfer delivering one chunk,
every manifest entry is attempted and the exit code is 0 (in particular, 1
iff some entry failed); with a connection error, `main` returns no exit
code. -/
theorem c10_pack_download_phase_amended_witness :
    (packMainFull (fun _ => Net.ok [[1]]) "/tmp/supertonic_build" false true
        ⟨[], []⟩).loop.attempted = ALL_FILES
    ∧ ((packMainFull (fun _ => Net.ok [[1]]) "/tmp/supertonic_build" false true
          ⟨[], []⟩).exit = some 1 ↔
        (packMainFull (fun _ => Net.ok [[1]]) "/tmp/supertonic_build" false true
          ⟨[], []⟩).loop.failed ≠ [])
    ∧ (packMainFull (fun _ => Net.connectError) "/tmp/supertonic_build" false true
        ⟨[], []⟩).exit = none := by
  have hok := (c10_pack_download_phase_amended (fun _ => Net.ok [[1]])
    "/tmp/supertonic_build" false true ⟨[], []⟩ DlErr.transport).1 rfl
  have habort := (c10_pack_download_phase_amended (fun _ => Net.connectError)
    "/tmp/supertonic_build" false true ⟨[], []⟩ DlErr.transport).2 rfl
  exact ⟨hok.1, hok.2.2.2.1, habort.1⟩

end Supertonic
